import Mathlib

/-!
Shallow embedding of the TFTP client library (src/lib.rs) over lists of
byte values (Nat, each byte in 0..255).  The two transfer functions are
modelled as state machines driven by the list of datagrams delivered to
the blocking receive call; every send performed by the code is collected
in a list of sent datagrams.  Rust u16 arithmetic is modelled on Nat with
explicit reduction modulo 65536.  A slice expression or library call that
panics in Rust is modelled by a dedicated panic outcome.
-/

/-- The byte range test used for UTF-8 continuation bytes (0x80..0xBF). -/
def contByte (b : Nat) : Bool := 128 ≤ b && b ≤ 191

/-- Fueled decoder implementing the lossy UTF-8 decoding performed by the
Rust standard library function String.from_utf8_lossy: each maximal invalid
subsequence is replaced by U+FFFD, and an incomplete final sequence is
replaced by a single U+FFFD.  The fuel is the length of the input, and each
step consumes at least one byte. -/
def utf8LossyAux : Nat → List Nat → List Char
  | 0, _ => []
  | _, [] => []
  | fuel + 1, b0 :: rest =>
    if b0 < 128 then Char.ofNat b0 :: utf8LossyAux fuel rest
    else if b0 < 194 then Char.ofNat 65533 :: utf8LossyAux fuel rest
    else if b0 < 224 then
      match rest with
      | [] => [Char.ofNat 65533]
      | b1 :: rest2 =>
        if contByte b1 then
          Char.ofNat ((b0 - 192) * 64 + (b1 - 128)) :: utf8LossyAux fuel rest2
        else Char.ofNat 65533 :: utf8LossyAux fuel rest
    else if b0 < 240 then
      match rest with
      | [] => [Char.ofNat 65533]
      | b1 :: rest2 =>
        if (if b0 = 224 then 160 ≤ b1 && b1 ≤ 191
            else if b0 = 237 then 128 ≤ b1 && b1 ≤ 159
            else contByte b1) then
          match rest2 with
          | [] => [Char.ofNat 65533]
          | b2 :: rest3 =>
            if contByte b2 then
              Char.ofNat ((b0 - 224) * 4096 + (b1 - 128) * 64 + (b2 - 128)) ::
                utf8LossyAux fuel rest3
            else Char.ofNat 65533 :: utf8LossyAux fuel rest2
        else Char.ofNat 65533 :: utf8LossyAux fuel rest
    else if b0 < 245 then
      match rest with
      | [] => [Char.ofNat 65533]
      | b1 :: rest2 =>
        if (if b0 = 240 then 144 ≤ b1 && b1 ≤ 191
            else if b0 = 244 then 128 ≤ b1 && b1 ≤ 143
            else contByte b1) then
          match rest2 with
          | [] => [Char.ofNat 65533]
          | b2 :: rest3 =>
            if contByte b2 then
              match rest3 with
              | [] => [Char.ofNat 65533]
              | b3 :: rest4 =>
                if contByte b3 then
                  Char.ofNat ((b0 - 240) * 262144 + (b1 - 128) * 4096 +
                      (b2 - 128) * 64 + (b3 - 128)) :: utf8LossyAux fuel rest4
                else Char.ofNat 65533 :: utf8LossyAux fuel rest3
            else Char.ofNat 65533 :: utf8LossyAux fuel rest2
        else Char.ofNat 65533 :: utf8LossyAux fuel rest
    else Char.ofNat 65533 :: utf8LossyAux fuel rest

/-- Model of Rust String.from_utf8_lossy(bytes).to_string(). -/
def utf8Lossy (bytes : List Nat) : String := String.mk (utf8LossyAux bytes.length bytes)

/-- The error enumeration TftpError of the library (src/lib.rs). -/
inductive TftpError where
  | InvalidResponse (raw : List Nat)
  | NotDefined (msg : String)
  | FileNotFound
  | AccessViolation
  | DiskFull
  | IllegalOperation
  | UnknownTransferID
  | FileAlreadyExists
  | NoSuchUser
deriving DecidableEq, Repr

/-- Model of TftpError::from_error_code.  The Rust source matches the slice
against the patterns [0, k, ..] for k in 1..7 and otherwise evaluates
String::from_utf8_lossy(&response[2..]).  When the input slice has length 0
or 1 the fallback arm is reached and the slice expression response[2..]
panics; this is modelled by returning none. -/
def fromErrorCode (response : List Nat) : Option TftpError :=
  match response with
  | b0 :: b1 :: rest =>
    if b0 = 0 ∧ b1 = 1 then some TftpError.FileNotFound
    else if b0 = 0 ∧ b1 = 2 then some TftpError.AccessViolation
    else if b0 = 0 ∧ b1 = 3 then some TftpError.DiskFull
    else if b0 = 0 ∧ b1 = 4 then some TftpError.IllegalOperation
    else if b0 = 0 ∧ b1 = 5 then some TftpError.UnknownTransferID
    else if b0 = 0 ∧ b1 = 6 then some TftpError.FileAlreadyExists
    else if b0 = 0 ∧ b1 = 7 then some TftpError.NoSuchUser
    else some (TftpError.NotDefined (utf8Lossy rest))
  | _ => none

/-- Opcode constant OPCODE_RRQ ([0, 1]) from the opcode module. -/
def OPCODE_RRQ : List Nat := [0, 1]

/-- Opcode constant OPCODE_WRQ ([0, 2]) from the opcode module. -/
def OPCODE_WRQ : List Nat := [0, 2]

/-- Opcode constant OPCODE_DAT ([0, 3]) from the opcode module. -/
def OPCODE_DAT : List Nat := [0, 3]

/-- Opcode constant OPCODE_ACK ([0, 4]) from the opcode module. -/
def OPCODE_ACK : List Nat := [0, 4]

/-- The NULL constant: a single zero byte. -/
def NULL : List Nat := [0]

/-- The NETASCII constant: the bytes of the eight ASCII characters of the
mode string used by both request builders. -/
def NETASCII : List Nat := [110, 101, 116, 97, 115, 99, 105, 105]

/-- The request datagram built by put_file and get_file:
[opcode, path bytes, NULL, NETASCII, NULL].concat(). -/
def requestPacket (opcode path : List Nat) : List Nat :=
  opcode ++ path ++ NULL ++ NETASCII ++ NULL

/-- Big-endian byte pair of a u16 value, as produced by u16::to_be_bytes. -/
def be16Bytes (n : Nat) : List Nat := [n / 256 % 256, n % 256]

/-- Number of bytes recv_from reports for a delivered datagram: the datagram
length, truncated to the 516-byte receive buffer. -/
def recvBytes (d : List Nat) : Nat := min d.length 516

/-- The 516-byte receive buffer after recv_from delivers datagram d: the
buffer is zero-initialised, so the datagram bytes are followed by zeros. -/
def recvBuf (d : List Nat) : List Nat :=
  d.take 516 ++ List.replicate (516 - d.length) 0

/-- The 16-bit big-endian integer decoded from the first two bytes of a
receive buffer, as in u16::from_be_bytes([response[0], response[1]]). -/
def opcodeOf (resp : List Nat) : Nat := 256 * resp.getD 0 0 + resp.getD 1 0

/-- The chunk boundary computed by put_file: end = (sends_completed * 512)
as a u16 product (reduced modulo 65536), then clamped to data.len(). -/
def chunkEnd (dataLen sc : Nat) : Nat :=
  if sc * 512 % 65536 > dataLen then dataLen else sc * 512 % 65536

/-- The condition under which put_file sets final_recv = true: the u16
product sends_completed * 512 strictly exceeds data.len(). -/
def chunkFinal (dataLen sc : Nat) : Bool := decide (sc * 512 % 65536 > dataLen)

/-- The payload slice data[(sends_completed - 1) * 512 .. end] sent by
put_file, with both slice indices computed in u16 arithmetic. -/
def dataPayload (data : List Nat) (sc : Nat) : List Nat :=
  (data.drop ((sc - 1) * 512 % 65536)).take (chunkEnd data.length sc - (sc - 1) * 512 % 65536)

/-- The full DATA datagram sent by put_file for block sc. -/
def dataPacket (data : List Nat) (sc : Nat) : List Nat :=
  OPCODE_DAT ++ be16Bytes sc ++ dataPayload data sc

/-- An ACK datagram with block number j, as a server would send it. -/
def ackPacket (j : Nat) : List Nat := OPCODE_ACK ++ be16Bytes j

/-- A run of m consecutive ACK datagrams with block numbers i, i+1, ... -/
def ackSeq : Nat → Nat → List (List Nat)
  | _, 0 => []
  | i, m + 1 => ackPacket i :: ackSeq (i + 1) m

/-- A run of m consecutive DATA datagrams with block numbers i, i+1, ... -/
def dataSeq (data : List Nat) : Nat → Nat → List (List Nat)
  | _, 0 => []
  | i, m + 1 => dataPacket data i :: dataSeq data (i + 1) m

/-- Result of a get_file run against a finite list of delivered datagrams. -/
inductive GetResult where
  | ok (buf : List Nat)
  | err (e : TftpError)
  | blocked
  | panicked
deriving DecidableEq, Repr

/-- The receive loop of get_file.  Each iteration receives one datagram
into a fresh zeroed 516-byte buffer, matches response[0..2], and either
sends an ACK echoing response[2..4] and appends response[4..] to the
accumulated buffer (breaking when fewer than 516 bytes were received),
returns the mapped error for an ERROR opcode, or returns InvalidResponse
with the whole buffer.  The first component collects the sent ACKs. -/
def getLoop : List (List Nat) → List Nat → List (List Nat) × GetResult
  | [], _ => ([], GetResult.blocked)
  | d :: rest, acc =>
    let bytes := recvBytes d
    let resp := recvBuf d
    if resp.take 2 = [0, 3] then
      let ack := OPCODE_ACK ++ (resp.drop 2).take 2
      let acc2 := acc ++ resp.drop 4
      if bytes < 516 then ([ack], GetResult.ok acc2)
      else (ack :: (getLoop rest acc2).1, (getLoop rest acc2).2)
    else if resp.take 2 = [0, 5] then
      match fromErrorCode ((resp.drop 2).take (bytes - 2)) with
      | some e => ([], GetResult.err e)
      | none => ([], GetResult.panicked)
    else ([], GetResult.err (TftpError.InvalidResponse resp))

/-- Model of get_file: sends the read request, then runs the receive loop
with an empty accumulator.  Returns (sent datagrams, result). -/
def getFile (path : List Nat) (incoming : List (List Nat)) : List (List Nat) × GetResult :=
  let p := getLoop incoming []
  (requestPacket OPCODE_RRQ path :: p.1, p.2)

/-- The mutable state of the put_file loop. -/
structure PutState where
  sendsCompleted : Nat
  finalRecv : Bool
deriving DecidableEq, Repr

/-- Outcome of one iteration of the put_file loop. -/
inductive PutOutcome where
  | cont (s : PutState) (sent : List Nat)
  | done
  | fail (e : TftpError)
  | panic
deriving DecidableEq, Repr

/-- One iteration of the put_file loop on a received datagram.  On an ACK:
break when final_recv is set; otherwise advance sends_completed when the
acknowledged block number equals it, compute the chunk boundary in u16
arithmetic, and send data[(sends_completed-1)*512 .. end] (a slice whose
start exceeding its end is a Rust panic, modelled by the panic outcome).
ERROR and unknown opcodes are handled as in get_file. -/
def putStep (data : List Nat) (s : PutState) (d : List Nat) : PutOutcome :=
  let bytes := recvBytes d
  let resp := recvBuf d
  if resp.take 2 = [0, 4] then
    if s.finalRecv then PutOutcome.done
    else
      let sc := if 256 * resp.getD 2 0 + resp.getD 3 0 = s.sendsCompleted
                then (s.sendsCompleted + 1) % 65536
                else s.sendsCompleted
      if (sc - 1) * 512 % 65536 ≤ chunkEnd data.length sc then
        PutOutcome.cont ⟨sc, chunkFinal data.length sc⟩ (dataPacket data sc)
      else PutOutcome.panic
  else if resp.take 2 = [0, 5] then
    match fromErrorCode ((resp.drop 2).take (bytes - 2)) with
    | some e => PutOutcome.fail e
    | none => PutOutcome.panic
  else PutOutcome.fail (TftpError.InvalidResponse resp)

/-- Result of a put_file run against a finite list of delivered datagrams. -/
inductive PutResult where
  | ok
  | err (e : TftpError)
  | blocked
  | panicked
deriving DecidableEq, Repr

/-- The receive loop of put_file, collecting the DATA datagrams it sends. -/
def putLoop (data : List Nat) : List (List Nat) → PutState → List (List Nat) × PutResult
  | [], _ => ([], PutResult.blocked)
  | d :: rest, s =>
    match putStep data s d with
    | PutOutcome.done => ([], PutResult.ok)
    | PutOutcome.fail e => ([], PutResult.err e)
    | PutOutcome.panic => ([], PutResult.panicked)
    | PutOutcome.cont s2 sent =>
      (sent :: (putLoop data rest s2).1, (putLoop data rest s2).2)

/-- Model of put_file: sends the write request, then runs the receive loop
with sends_completed = 1 and final_recv = false. -/
def putFile (path data : List Nat) (incoming : List (List Nat)) : List (List Nat) × PutResult :=
  let p := putLoop data incoming ⟨1, false⟩
  (requestPacket OPCODE_WRQ path :: p.1, p.2)

/-! ### Helper lemmas -/

theorem recvBuf_length (d : List Nat) : (recvBuf d).length = 516 := by
  simp [recvBuf]
  omega

theorem recvBuf_of_le (d : List Nat) (h : d.length ≤ 516) :
    recvBuf d = d ++ List.replicate (516 - d.length) 0 := by
  simp [recvBuf, List.take_of_length_le h]

theorem take_two_eq (l : List Nat) (h : 2 ≤ l.length) :
    l.take 2 = [l.getD 0 0, l.getD 1 0] := by
  match l with
  | [] => simp at h
  | [a] => simp at h
  | a :: b :: t => simp

theorem fromErrorCode_isSome (r : List Nat) (h : 2 ≤ r.length) :
    (fromErrorCode r).isSome = true := by
  match r with
  | [] => simp at h
  | [a] => simp at h
  | b0 :: b1 :: rest =>
    simp only [fromErrorCode]
    split_ifs <;> simp

/-! ### Claim theorems -/

/-- C10: TftpError::from_error_code returns a TransferError for every input
slice of length at least two, and for an input slice of length zero or one
the fallback arm slices response[2..] out of bounds and panics (modelled as
none). -/
theorem c10_from_error_code_totality (r : List Nat) :
    (2 ≤ r.length → (fromErrorCode r).isSome = true) ∧
    (r.length < 2 → fromErrorCode r = none) := by
  constructor
  · exact fromErrorCode_isSome r
  · intro h
    match r with
    | [] => rfl
    | [a] => rfl
    | a :: b :: t =>
      simp at h
      omega

/-- C10 witness: a three-byte slice maps to a value, the empty slice and a
one-byte slice reach the panicking fallback. -/
theorem c10_witness :
    (fromErrorCode [0, 1, 2]).isSome = true ∧ fromErrorCode [] = none ∧
      fromErrorCode [7] = none :=
  ⟨(c10_from_error_code_totality [0, 1, 2]).1 (by decide),
   (c10_from_error_code_totality []).2 (by decide),
   (c10_from_error_code_totality [7]).2 (by decide)⟩

/-- C4: error codes 1 through 7 map one-to-one to the seven fixed variants
regardless of the trailing message bytes, and code 0 or any code above 7
maps to NotDefined carrying the remaining bytes decoded as UTF-8 with lossy
replacement; every 2-byte code therefore produces exactly one variant. -/
theorem c4_error_code_mapping (msg : List Nat) :
    fromErrorCode (0 :: 1 :: msg) = some TftpError.FileNotFound ∧
    fromErrorCode (0 :: 2 :: msg) = some TftpError.AccessViolation ∧
    fromErrorCode (0 :: 3 :: msg) = some TftpError.DiskFull ∧
    fromErrorCode (0 :: 4 :: msg) = some TftpError.IllegalOperation ∧
    fromErrorCode (0 :: 5 :: msg) = some TftpError.UnknownTransferID ∧
    fromErrorCode (0 :: 6 :: msg) = some TftpError.FileAlreadyExists ∧
    fromErrorCode (0 :: 7 :: msg) = some TftpError.NoSuchUser ∧
    ∀ b0 b1 : Nat, 256 * b0 + b1 = 0 ∨ 7 < 256 * b0 + b1 →
      fromErrorCode (b0 :: b1 :: msg) = some (TftpError.NotDefined (utf8Lossy msg)) := by
  refine ⟨by simp [fromErrorCode], by simp [fromErrorCode], by simp [fromErrorCode],
    by simp [fromErrorCode], by simp [fromErrorCode], by simp [fromErrorCode],
    by simp [fromErrorCode], ?_⟩
  intro b0 b1 h
  simp only [fromErrorCode]
  rw [if_neg (by omega), if_neg (by omega), if_neg (by omega), if_neg (by omega),
    if_neg (by omega), if_neg (by omega), if_neg (by omega)]

/-- C4 witness: code 1 maps to FileNotFound and code 9 maps to NotDefined of
the decoded message, at a concrete message. -/
theorem c4_witness :
    fromErrorCode [0, 1, 104] = some TftpError.FileNotFound ∧
    fromErrorCode [0, 9, 104] = some (TftpError.NotDefined (utf8Lossy [104])) :=
  ⟨(c4_error_code_mapping [104]).1,
   (c4_error_code_mapping [104]).2.2.2.2.2.2.2 0 9 (by omega)⟩

/-- C7: for every filename without a NUL byte, the request datagram sent
first by get_file carries the 2-byte big-endian ReadRequest opcode and the
one sent first by put_file the WriteRequest opcode, each followed by the
filename bytes, a zero byte, the eight ASCII bytes of the mode string
netascii, and a final zero byte. -/
theorem c7_request_format (path data : List Nat) (incoming : List (List Nat))
    (hnul : 0 ∉ path) :
    ((getFile path incoming).1).head? = some ([0, 1] ++ path ++ [0] ++ NETASCII ++ [0]) ∧
    ((putFile path data incoming).1).head? = some ([0, 2] ++ path ++ [0] ++ NETASCII ++ [0]) ∧
    NETASCII = "netascii".toList.map Char.toNat := by
  refine ⟨?_, ?_, by decide⟩
  · simp [getFile, requestPacket, OPCODE_RRQ, NULL]
  · simp [putFile, requestPacket, OPCODE_WRQ, NULL]

/-- C7 witness: the request datagrams for the one-byte filename [102]. -/
theorem c7_witness :
    ((getFile [102] []).1).head? = some ([0, 1] ++ [102] ++ [0] ++ NETASCII ++ [0]) ∧
    ((putFile [102] [] []).1).head? = some ([0, 2] ++ [102] ++ [0] ++ NETASCII ++ [0]) ∧
    NETASCII = "netascii".toList.map Char.toNat :=
  c7_request_format [102] [] [] (by decide)

/-- C8: for every received DATA datagram, the first datagram get_file sends
in reply is an ACK consisting of opcode bytes [0, 4] followed by the two
bytes at positions 2..4 of the received packet, with no hypothesis at all
relating those bytes to an expected block counter. -/
theorem c8_ack_echoes_block_bytes (d : List Nat) (rest : List (List Nat)) (acc : List Nat)
    (hlen : 4 ≤ d.length) (hlen2 : d.length ≤ 516) (hop : d.take 2 = [0, 3]) :
    ((getLoop (d :: rest) acc).1).head? = some ([0, 4] ++ (d.drop 2).take 2) := by
  have hbuf : (recvBuf d).take 2 = [0, 3] := by
    rw [recvBuf_of_le d hlen2, List.take_append_of_le_length (by omega), hop]
  have hblk : ((recvBuf d).drop 2).take 2 = (d.drop 2).take 2 := by
    rw [recvBuf_of_le d hlen2, List.drop_append_of_le_length (by omega),
      List.take_append_of_le_length (by rw [List.length_drop]; omega)]
  simp only [getLoop, hbuf, if_pos, hblk, OPCODE_ACK]
  by_cases hb : recvBytes d < 516 <;> simp [hb]

/-- C8 witness: a six-byte DATA datagram with block bytes [0, 5] is answered
by the ACK [0, 4, 0, 5]. -/
theorem c8_witness :
    ((getLoop [[0, 3, 0, 5, 1, 2]] []).1).head? =
      some ([0, 4] ++ (([0, 3, 0, 5, 1, 2] : List Nat).drop 2).take 2) :=
  c8_ack_echoes_block_bytes [0, 3, 0, 5, 1, 2] [] [] (by decide) (by decide) (by decide)

set_option maxRecDepth 40000 in
/-- C1: in the two-chunk get scenario (DATA block 1 with a 512-byte payload,
then DATA block 2 with a 300-byte payload) get_file appends response[4..],
the entire 512-byte tail of the zeroed receive buffer, so it returns the two
payloads followed by 212 zero bytes — 1024 bytes in total — instead of
appending exactly the payload bytes and returning 812 bytes. -/
theorem c1_get_file_pads_final_chunk :
    (getFile [] [[0, 3, 0, 1] ++ List.replicate 512 7,
        [0, 3, 0, 2] ++ List.replicate 300 9]).2 =
      GetResult.ok (List.replicate 512 7 ++ (List.replicate 300 9 ++ List.replicate 212 0)) ∧
    (List.replicate 512 7 ++ (List.replicate 300 9 ++ List.replicate 212 0) : List Nat).length
      = 1024 ∧
    (getFile [] [[0, 3, 0, 1] ++ List.replicate 512 7,
        [0, 3, 0, 2] ++ List.replicate 300 9]).2 ≠
      GetResult.ok (List.replicate 512 7 ++ List.replicate 300 9) :=
  ⟨by decide, by decide, by decide⟩

set_option maxRecDepth 40000 in
/-- C2: counterexample — for the two-byte datagram [0, 9] (opcode 9, outside
1..5) get_file returns InvalidResponse carrying the whole 516-byte receive
buffer, the received bytes padded with 514 zero bytes, which differs from
the original received bytes. -/
theorem c2_invalid_response_not_raw :
    (getFile [] [[0, 9]]).2 =
      GetResult.err (TftpError.InvalidResponse ([0, 9] ++ List.replicate 514 0)) ∧
    ([0, 9] ++ List.replicate 514 0 : List Nat) ≠ [0, 9] :=
  ⟨by decide, by decide⟩

/-- C2 amended: for every received datagram (at most the 516-byte buffer
size) whose first two buffer bytes decode to an opcode outside 1..5, both
state machines terminate in InvalidResponse carrying the full 516-byte
receive buffer — the received bytes followed by zero padding — so the bytes
are carried unmodified exactly when the datagram is 516 bytes long. -/
theorem c2_invalid_response_padded (d acc data : List Nat) (rest : List (List Nat)) (s : PutState)
    (hlen : d.length ≤ 516)
    (hop : ¬(1 ≤ opcodeOf (recvBuf d) ∧ opcodeOf (recvBuf d) ≤ 5)) :
    getLoop (d :: rest) acc =
      ([], GetResult.err (TftpError.InvalidResponse (d ++ List.replicate (516 - d.length) 0))) ∧
    putLoop data (d :: rest) s =
      ([], PutResult.err (TftpError.InvalidResponse (d ++ List.replicate (516 - d.length) 0))) := by
  have h2 : 2 ≤ (recvBuf d).length := by rw [recvBuf_length]; omega
  have ht : (recvBuf d).take 2 = [(recvBuf d).getD 0 0, (recvBuf d).getD 1 0] :=
    take_two_eq _ h2
  have key : ∀ k : Nat, 1 ≤ k → k ≤ 5 → (recvBuf d).take 2 ≠ [0, k] := by
    intro k hk1 hk2 hh
    rw [ht] at hh
    simp only [List.cons.injEq, and_true] at hh
    apply hop
    unfold opcodeOf
    omega
  have hr := recvBuf_of_le d hlen
  have hstep : putStep data s d = PutOutcome.fail (TftpError.InvalidResponse (recvBuf d)) := by
    simp only [putStep]
    rw [if_neg (key 4 (by omega) (by omega)), if_neg (key 5 (by omega) (by omega))]
  constructor
  · simp only [getLoop]
    rw [if_neg (key 3 (by omega) (by omega)), if_neg (key 5 (by omega) (by omega)), hr]
  · simp only [putLoop]
    rw [hstep, hr]

/-- C2 witness: a three-byte datagram with opcode 0 yields InvalidResponse
holding the zero-padded buffer in both state machines. -/
theorem c2_witness :
    getLoop [[0, 0, 7]] [] =
      ([], GetResult.err (TftpError.InvalidResponse
        (([0, 0, 7] : List Nat) ++ List.replicate (516 - ([0, 0, 7] : List Nat).length) 0))) ∧
    putLoop [] [[0, 0, 7]] ⟨1, false⟩ =
      ([], PutResult.err (TftpError.InvalidResponse
        (([0, 0, 7] : List Nat) ++ List.replicate (516 - ([0, 0, 7] : List Nat).length) 0))) :=
  c2_invalid_response_padded [0, 0, 7] [] [] [] ⟨1, false⟩ (by decide) (by decide)

/-- C6: counterexample — the two-byte ERROR datagram [0, 5] makes both
functions hand the error mapper an empty body, whose fallback slice panics,
so neither function returns an Err value built by the mapper there. -/
theorem c6_truncated_error_packet_panics :
    (getFile [] [[0, 5]]).2 = GetResult.panicked ∧
    (putFile [] [] [[0, 5]]).2 = PutResult.panicked ∧
    ∀ e : TftpError, (getFile [] [[0, 5]]).2 ≠ GetResult.err e := by
  refine ⟨by decide, by decide, ?_⟩
  intro e h
  rw [(by decide : (getFile [] [[0, 5]]).2 = GetResult.panicked)] at h
  exact GetResult.noConfusion h

/-- C6 amended: whenever the received datagram has opcode ERROR and total
length at least four, get_file and put_file immediately return Err with the
TransferError the error mapper produces from the packet body (the bytes
after the opcode), and no partial data is returned — the error value carries
no buffer and the accumulated state is discarded; an ERROR datagram of
length two or three instead panics inside the mapper. -/
theorem c6_error_packet_maps_and_aborts (d acc data : List Nat) (rest : List (List Nat))
    (s : PutState) (h4 : 4 ≤ d.length) (h516 : d.length ≤ 516) (hop : d.take 2 = [0, 5]) :
    ∃ e : TftpError, fromErrorCode (d.drop 2) = some e ∧
      getLoop (d :: rest) acc = ([], GetResult.err e) ∧
      putLoop data (d :: rest) s = ([], PutResult.err e) := by
  have hr := recvBuf_of_le d h516
  have hbuf : (recvBuf d).take 2 = [0, 5] := by
    rw [hr, List.take_append_of_le_length (by omega), hop]
  have hbytes : recvBytes d = d.length := by unfold recvBytes; omega
  have hbody : ((recvBuf d).drop 2).take (recvBytes d - 2) = d.drop 2 := by
    rw [hr, List.drop_append_of_le_length (by omega), hbytes,
      List.take_append_of_le_length (by rw [List.length_drop]),
      List.take_of_length_le (by rw [List.length_drop])]
  have hsome : (fromErrorCode (d.drop 2)).isSome = true := by
    apply fromErrorCode_isSome
    rw [List.length_drop]; omega
  obtain ⟨e, he⟩ := Option.isSome_iff_exists.mp hsome
  refine ⟨e, he, ?_, ?_⟩
  · simp only [getLoop, hbuf, hbody, he]
    simp
  · have hstep : putStep data s d = PutOutcome.fail e := by
      simp only [putStep, hbuf, hbody, he]
      simp
    simp only [putLoop, hstep]

/-- C6 witness: the four-byte ERROR datagram with code 1 terminates both
machines with the mapped error. -/
theorem c6_witness :
    ∃ e : TftpError, fromErrorCode (([0, 5, 0, 1] : List Nat).drop 2) = some e ∧
      getLoop [[0, 5, 0, 1]] [] = ([], GetResult.err e) ∧
      putLoop [] [[0, 5, 0, 1]] ⟨1, false⟩ = ([], PutResult.err e) :=
  c6_error_packet_maps_and_aborts [0, 5, 0, 1] [] [] [] ⟨1, false⟩
    (by decide) (by decide) (by decide)

/-! ### Step lemmas for the put_file loop -/

theorem be16Bytes_small (j : Nat) (hj : j < 256) : be16Bytes j = [0, j] := by
  simp [be16Bytes, Nat.div_eq_of_lt hj, Nat.mod_eq_of_lt hj]

theorem dataPacket_eq_of_le (data : List Nat) (sc : Nat) (h1 : sc * 512 < 65536) :
    [0, 3] ++ be16Bytes sc ++
      (data.drop ((sc - 1) * 512)).take (min (sc * 512) data.length - (sc - 1) * 512) =
    dataPacket data sc := by
  unfold dataPacket dataPayload OPCODE_DAT
  have h2 : (sc - 1) * 512 < 65536 := by omega
  rw [Nat.mod_eq_of_lt h2]
  have h3 : chunkEnd data.length sc = min (sc * 512) data.length := by
    unfold chunkEnd
    rw [Nat.mod_eq_of_lt h1]
    split_ifs <;> omega
  rw [h3]

theorem putStep_ack_general (data : List Nat) (sc b2 b3 sc2 : Nat)
    (hsc2 : sc2 = if 256 * b2 + b3 = sc then sc + 1 else sc)
    (hnw : sc2 * 512 < 65536)
    (hstart : (sc2 - 1) * 512 ≤ data.length) :
    putStep data ⟨sc, false⟩ [0, 4, b2, b3] =
      PutOutcome.cont ⟨sc2, decide (data.length < sc2 * 512)⟩
        ([0, 3] ++ be16Bytes sc2 ++
          (data.drop ((sc2 - 1) * 512)).take (min (sc2 * 512) data.length - (sc2 - 1) * 512)) := by
  have hsc2b : sc2 < 65536 :=
    lt_of_le_of_lt (Nat.le_mul_of_pos_right sc2 (by omega)) hnw
  have htk : (recvBuf [0, 4, b2, b3]).take 2 = [0, 4] := rfl
  have hg2 : (recvBuf [0, 4, b2, b3]).getD 2 0 = b2 := rfl
  have hg3 : (recvBuf [0, 4, b2, b3]).getD 3 0 = b3 := rfl
  have hmod : sc2 * 512 % 65536 = sc2 * 512 := Nat.mod_eq_of_lt hnw
  have hmod2 : (sc2 - 1) * 512 % 65536 = (sc2 - 1) * 512 := Nat.mod_eq_of_lt (by omega)
  have hce : chunkEnd data.length sc2 = min (sc2 * 512) data.length := by
    unfold chunkEnd
    rw [hmod]
    split_ifs <;> omega
  simp only [putStep, htk, hg2, hg3, if_true, Bool.false_eq_true, if_false]
  have hsel : (if 256 * b2 + b3 = sc then (sc + 1) % 65536 else sc) = sc2 := by
    by_cases hc : 256 * b2 + b3 = sc
    · have h21 : sc2 = sc + 1 := by rw [hsc2, if_pos hc]
      rw [if_pos hc, h21, Nat.mod_eq_of_lt (by omega)]
    · rw [if_neg hc, hsc2, if_neg hc]
  simp only [hsel]
  rw [if_pos (by rw [hmod2, hce]; omega)]
  rw [← dataPacket_eq_of_le data sc2 hnw]
  simp only [chunkFinal, hmod]

theorem putStep_ack0 (data : List Nat) (h : 512 ≤ data.length) :
    putStep data ⟨1, false⟩ (ackPacket 0) = PutOutcome.cont ⟨1, false⟩ (dataPacket data 1) := by
  have hak : ackPacket 0 = [0, 4, 0, 0] := rfl
  rw [hak, putStep_ack_general data 1 0 0 1 (by norm_num) (by omega) (by omega)]
  rw [dataPacket_eq_of_le data 1 (by omega)]
  rw [decide_eq_false (by omega : ¬data.length < 1 * 512)]

theorem putStep_ack_advance (data : List Nat) (i : Nat) (h2 : i + 1 ≤ 127)
    (h3 : (i + 1) * 512 ≤ data.length) :
    putStep data ⟨i, false⟩ (ackPacket i) =
      PutOutcome.cont ⟨i + 1, false⟩ (dataPacket data (i + 1)) := by
  have hi : i < 256 := by omega
  have hak : ackPacket i = [0, 4, 0, i] := by
    rw [ackPacket, be16Bytes_small i hi]
    rfl
  rw [hak, putStep_ack_general data i 0 i (i + 1) (by simp) (by omega) (by omega)]
  rw [dataPacket_eq_of_le data (i + 1) (by omega)]
  rw [decide_eq_false (by omega : ¬data.length < (i + 1) * 512)]

theorem putStep_ack_final (data : List Nat) (k : Nat) (h1 : 1 ≤ k) (h2 : k ≤ 126)
    (hlen : data.length = 512 * k) :
    putStep data ⟨k, false⟩ (ackPacket k) =
      PutOutcome.cont ⟨k + 1, true⟩ (dataPacket data (k + 1)) := by
  have hk : k < 256 := by omega
  have hak : ackPacket k = [0, 4, 0, k] := by
    rw [ackPacket, be16Bytes_small k hk]
    rfl
  rw [hak, putStep_ack_general data k 0 k (k + 1) (by simp) (by omega) (by omega)]
  rw [dataPacket_eq_of_le data (k + 1) (by omega)]
  rw [decide_eq_true (by omega : data.length < (k + 1) * 512)]

theorem putStep_final_done (data d : List Nat) (s : PutState) (hf : s.finalRecv = true)
    (hop : (recvBuf d).take 2 = [0, 4]) :
    putStep data s d = PutOutcome.done := by
  simp only [putStep, hop, hf]
  simp

theorem putStep_wrap (data : List Nat) :
    putStep data ⟨127, false⟩ (ackPacket 127) = PutOutcome.panic := by
  have htk : (recvBuf (ackPacket 127)).take 2 = [0, 4] := rfl
  have hg2 : (recvBuf (ackPacket 127)).getD 2 0 = 0 := rfl
  have hg3 : (recvBuf (ackPacket 127)).getD 3 0 = 127 := rfl
  have hce : chunkEnd data.length 128 = 0 := by
    unfold chunkEnd
    norm_num
  simp only [putStep, htk, hg2, hg3, if_true, Bool.false_eq_true, if_false]
  norm_num [hce]

theorem ackSeq_append (a b : Nat) : ∀ i, ackSeq i a ++ ackSeq (i + a) b = ackSeq i (a + b) := by
  induction a with
  | zero =>
    intro i
    simp [ackSeq]
  | succ n ih =>
    intro i
    show ackPacket i :: (ackSeq (i + 1) n ++ ackSeq (i + (n + 1)) b) = ackSeq i (n + 1 + b)
    rw [show i + (n + 1) = i + 1 + n from by omega, ih (i + 1),
      show n + 1 + b = (n + b) + 1 from by omega]
    rfl

theorem dataSeq_append (data : List Nat) (a b : Nat) :
    ∀ i, dataSeq data i a ++ dataSeq data (i + a) b = dataSeq data i (a + b) := by
  induction a with
  | zero =>
    intro i
    simp [dataSeq]
  | succ n ih =>
    intro i
    show dataPacket data i :: (dataSeq data (i + 1) n ++ dataSeq data (i + (n + 1)) b) =
      dataSeq data i (n + 1 + b)
    rw [show i + (n + 1) = i + 1 + n from by omega, ih (i + 1),
      show n + 1 + b = (n + b) + 1 from by omega]
    rfl

theorem putLoop_advance (data : List Nat) :
    ∀ (m i : Nat) (rest : List (List Nat)), i + m ≤ 127 → (i + m) * 512 ≤ data.length →
    putLoop data (ackSeq i m ++ rest) ⟨i, false⟩ =
      (dataSeq data (i + 1) m ++ (putLoop data rest ⟨i + m, false⟩).1,
       (putLoop data rest ⟨i + m, false⟩).2) := by
  intro m
  induction m with
  | zero =>
    intro i rest h1 h2
    simp [ackSeq, dataSeq]
  | succ n ih =>
    intro i rest h1 h2
    have hstep := putStep_ack_advance data i (by omega) (by omega)
    show putLoop data (ackPacket i :: (ackSeq (i + 1) n ++ rest)) ⟨i, false⟩ = _
    simp only [putLoop, hstep]
    rw [show i + (n + 1) = i + 1 + n from by omega]
    rw [ih (i + 1) rest (by omega) (by omega)]
    show (dataPacket data (i + 1) :: (dataSeq data (i + 1 + 1) n ++ _), _) = _
    rfl

theorem putLoop_cons_cont (data d : List Nat) (rest : List (List Nat)) (s s2 : PutState)
    (sent : List Nat) (h : putStep data s d = PutOutcome.cont s2 sent) :
    putLoop data (d :: rest) s =
      (sent :: (putLoop data rest s2).1, (putLoop data rest s2).2) := by
  simp only [putLoop, h]

theorem putLoop_cons_done (data d : List Nat) (rest : List (List Nat)) (s : PutState)
    (h : putStep data s d = PutOutcome.done) :
    putLoop data (d :: rest) s = ([], PutResult.ok) := by
  simp only [putLoop, h]

theorem putLoop_cons_panic (data d : List Nat) (rest : List (List Nat)) (s : PutState)
    (h : putStep data s d = PutOutcome.panic) :
    putLoop data (d :: rest) s = ([], PutResult.panicked) := by
  simp only [putLoop, h]

set_option maxRecDepth 40000 in
/-- C3: counterexample — for data of length 512 in state (sends_completed 1,
final_recv false), the ACK with block number 0 leaves the chunk boundary end
equal to data.length (both 512), yet the resulting state still has
final_recv = false and the full 512-byte chunk is sent, refuting that
final_sent is set exactly when end equals data.length. -/
theorem c3_final_flag_not_set_at_exact_boundary :
    putStep (List.replicate 512 7) ⟨1, false⟩ [0, 4, 0, 0] =
      PutOutcome.cont ⟨1, false⟩ ([0, 3, 0, 1] ++ List.replicate 512 7) ∧
    chunkEnd (List.replicate 512 7).length 1 = (List.replicate 512 7).length :=
  ⟨by decide, by decide⟩

/-- C3 amended: on an ACK in a non-final state, the block counter advances
by one exactly when the acknowledged block number equals it (a duplicate ACK
for a previous block leaves it unchanged); writing next_block for the
updated counter and assuming its 16-bit product does not wrap
(next_block * 512 < 65536) and the chunk start lies inside the data, the
chunk boundary is end = min(next_block * 512, data.length), the DATA packet
sent has block number next_block and payload data[(next_block-1)*512 .. end],
and final_sent is set exactly when next_block * 512 strictly exceeds
data.length — not when end equals data.length. -/
theorem c3_put_ack_step (data : List Nat) (sc b2 b3 sc2 : Nat)
    (hsc2 : sc2 = if 256 * b2 + b3 = sc then sc + 1 else sc)
    (hnw : sc2 * 512 < 65536)
    (hstart : (sc2 - 1) * 512 ≤ data.length) :
    putStep data ⟨sc, false⟩ [0, 4, b2, b3] =
      PutOutcome.cont ⟨sc2, decide (data.length < sc2 * 512)⟩
        ([0, 3] ++ be16Bytes sc2 ++
          (data.drop ((sc2 - 1) * 512)).take (min (sc2 * 512) data.length - (sc2 - 1) * 512)) :=
  putStep_ack_general data sc b2 b3 sc2 hsc2 hnw hstart

/-- C3 witness: for a 600-byte input, the ACK with block number 1 in state
(sends_completed 1, final_recv false) advances the counter to 2 and sends
the final 88-byte chunk. -/
theorem c3_witness :
    putStep (List.replicate 600 1) ⟨1, false⟩ [0, 4, 0, 1] =
      PutOutcome.cont ⟨2, decide ((List.replicate 600 1).length < 2 * 512)⟩
        ([0, 3] ++ be16Bytes 2 ++
          ((List.replicate 600 1).drop ((2 - 1) * 512)).take
            (min (2 * 512) (List.replicate 600 1).length - (2 - 1) * 512)) :=
  c3_put_ack_step (List.replicate 600 1) 1 0 1 2 (by norm_num) (by norm_num)
    (by rw [List.length_replicate]; norm_num)

/-- C9: the chunk-boundary product is computed in unsigned 16-bit
arithmetic, so for every input longer than 65024 = 127 * 512 bytes the
product at sends_completed = 128 wraps to 0 modulo 2^16, the computed end no
longer equals min(128 * 512, data.length), and the ACK for block 127 drives
put_file into the slice data[65024..0], whose start exceeds its end — a
panic — so such an input cannot be transferred. -/
theorem c9_u16_overflow_breaks_chunking (data : List Nat) (h : 65024 < data.length) :
    chunkEnd data.length 128 = 0 ∧
    chunkEnd data.length 128 ≠ min (128 * 512) data.length ∧
    putStep data ⟨127, false⟩ (ackPacket 127) = PutOutcome.panic := by
  refine ⟨?_, ?_, putStep_wrap data⟩
  · unfold chunkEnd
    norm_num
  · unfold chunkEnd
    norm_num
    omega

/-- C9 witness: the overflow facts at the concrete input of 65025 zero
bytes. -/
theorem c9_witness :
    chunkEnd (List.replicate 65025 0).length 128 = 0 ∧
    chunkEnd (List.replicate 65025 0).length 128 ≠
      min (128 * 512) (List.replicate 65025 0).length ∧
    putStep (List.replicate 65025 0) ⟨127, false⟩ (ackPacket 127) = PutOutcome.panic :=
  c9_u16_overflow_breaks_chunking (List.replicate 65025 0)
    (by rw [List.length_replicate]; norm_num)

theorem recvBuf_ack_take2 (j : Nat) : (recvBuf (ackPacket j)).take 2 = [0, 4] := rfl

theorem putFile_exact_multiple_127_panics (data : List Nat) (hlen : data.length = 65024) :
    (putFile [] data (ackSeq 0 129)).2 = PutResult.panicked := by
  have hstep0 := putStep_ack0 data (by omega)
  have hscript : ackSeq 1 128 = ackSeq 1 126 ++ ackSeq (1 + 126) 2 := by
    rw [ackSeq_append 126 2 1]
  have hadv := putLoop_advance data 126 1 (ackSeq (1 + 126) 2) (by omega) (by omega)
  have hwrap := putStep_wrap data
  have hseq1 : ackSeq 0 129 = ackPacket 0 :: ackSeq 1 128 := rfl
  have hseq2 : ackSeq (1 + 126) 2 = ackPacket 127 :: ackPacket 128 :: [] := rfl
  have hidx : (1 : Nat) + 126 = 127 := rfl
  have htail : putLoop data (ackPacket 127 :: ackPacket 128 :: []) ⟨127, false⟩ =
      ([], PutResult.panicked) :=
    putLoop_cons_panic data (ackPacket 127) (ackPacket 128 :: []) ⟨127, false⟩ hwrap
  have h2 : (putLoop data (ackSeq 0 129) ⟨1, false⟩).2 = PutResult.panicked := by
    rw [hseq1, putLoop_cons_cont data (ackPacket 0) (ackSeq 1 128) ⟨1, false⟩ ⟨1, false⟩
      (dataPacket data 1) hstep0]
    rw [hscript, hadv, hseq2, hidx, htail]
  simp only [putFile]
  exact h2

/-- C5: counterexample — an input of length 65024 = 512 * 127, an exact
multiple of 512, never completes: after the 127 full chunks, the ACK for
block 127 makes the u16 product 128 * 512 wrap to 0, the slice
data[65024..0] panics, and no additional empty-payload DATA packet is ever
sent. -/
theorem c5_exact_multiple_at_127_panics :
    (List.replicate 65024 0).length = 512 * 127 ∧
    (putFile [] (List.replicate 65024 0) (ackSeq 0 129)).2 = PutResult.panicked :=
  ⟨by rw [List.length_replicate],
   putFile_exact_multiple_127_panics (List.replicate 65024 0) (by rw [List.length_replicate])⟩

/-- C5 amended: an empty input completes after sending exactly one DATA
packet with zero-length payload and receiving one further ACK for it; and an
input whose length is an exact multiple of 512 with at most 126 blocks
(length 512 * k, 1 ≤ k ≤ 126 — beyond that the 16-bit overflow of the
chunk product prevents completion) is sent as k full 512-byte chunks plus
exactly one additional empty-payload DATA packet before the transfer
completes. -/
theorem c5_put_empty_and_exact_multiple (path data : List Nat) (k : Nat)
    (hk1 : 1 ≤ k) (hk2 : k ≤ 126) (hlen : data.length = 512 * k) :
    putFile path [] (ackSeq 0 2) =
      ([requestPacket OPCODE_WRQ path, [0, 3, 0, 1]], PutResult.ok) ∧
    putFile path data (ackSeq 0 (k + 2)) =
      (requestPacket OPCODE_WRQ path :: dataSeq data 1 (k + 1), PutResult.ok) ∧
    dataPayload data (k + 1) = [] ∧
    (∀ j, 1 ≤ j → j ≤ k → (dataPayload data j).length = 512) := by
  refine ⟨?_, ?_, ?_, ?_⟩
  · have hempty : putLoop [] (ackSeq 0 2) ⟨1, false⟩ = ([[0, 3, 0, 1]], PutResult.ok) := by
      decide
    simp only [putFile, hempty]
  · obtain ⟨k0, rfl⟩ : ∃ k0, k = k0 + 1 := ⟨k - 1, by omega⟩
    have hfin := putStep_ack_final data (k0 + 1) (by omega) (by omega) hlen
    have hdone : putStep data ⟨k0 + 1 + 1, true⟩ (ackPacket (k0 + 1 + 1)) = PutOutcome.done :=
      putStep_final_done data (ackPacket (k0 + 1 + 1)) ⟨k0 + 1 + 1, true⟩ rfl
        (recvBuf_ack_take2 (k0 + 1 + 1))
    have hseqt : ackSeq (k0 + 1) 2 = ackPacket (k0 + 1) :: ackPacket (k0 + 1 + 1) :: [] := rfl
    have htail : putLoop data (ackSeq (k0 + 1) 2) ⟨k0 + 1, false⟩ =
        ([dataPacket data (k0 + 1 + 1)], PutResult.ok) := by
      rw [hseqt,
        putLoop_cons_cont data (ackPacket (k0 + 1)) (ackPacket (k0 + 1 + 1) :: [])
          ⟨k0 + 1, false⟩ ⟨k0 + 1 + 1, true⟩ (dataPacket data (k0 + 1 + 1)) hfin,
        putLoop_cons_done data (ackPacket (k0 + 1 + 1)) [] ⟨k0 + 1 + 1, true⟩ hdone]
    have hmid : putLoop data (ackSeq 1 (k0 + 1 + 1)) ⟨1, false⟩ =
        (dataSeq data (1 + 1) (k0 + 1), PutResult.ok) := by
      rw [show k0 + 1 + 1 = k0 + 2 from by omega, ← ackSeq_append k0 2 1]
      rw [putLoop_advance data k0 1 (ackSeq (1 + k0) 2) (by omega) (by omega)]
      rw [show 1 + k0 = k0 + 1 from by omega]
      rw [htail]
      show (dataSeq data (1 + 1) k0 ++ [dataPacket data (k0 + 1 + 1)], PutResult.ok) =
        (dataSeq data (1 + 1) (k0 + 1), PutResult.ok)
      rw [show [dataPacket data (k0 + 1 + 1)] = dataSeq data (1 + 1 + k0) 1 from by
        rw [show 1 + 1 + k0 = k0 + 1 + 1 from by omega]
        simp only [dataSeq]]
      rw [dataSeq_append data k0 1 (1 + 1)]
    have hstep0 := putStep_ack0 data (by omega)
    have hseq0 : ackSeq 0 (k0 + 1 + 2) = ackPacket 0 :: ackSeq 1 (k0 + 1 + 1) := rfl
    have hfull : putLoop data (ackSeq 0 (k0 + 1 + 2)) ⟨1, false⟩ =
        (dataSeq data 1 (k0 + 1 + 1), PutResult.ok) := by
      rw [hseq0,
        putLoop_cons_cont data (ackPacket 0) (ackSeq 1 (k0 + 1 + 1)) ⟨1, false⟩
          ⟨1, false⟩ (dataPacket data 1) hstep0, hmid]
      rfl
    simp only [putFile, hfull]
  · unfold dataPayload
    rw [show (k + 1 - 1) * 512 % 65536 = k * 512 from by
      rw [show k + 1 - 1 = k from by omega, Nat.mod_eq_of_lt (by omega)]]
    have hce : chunkEnd data.length (k + 1) = data.length := by
      unfold chunkEnd
      rw [Nat.mod_eq_of_lt (by omega), if_pos (by omega)]
    rw [hce, show data.length - k * 512 = 0 from by omega]
    simp
  · intro j hj1 hj2
    unfold dataPayload
    have hce : chunkEnd data.length j = j * 512 := by
      unfold chunkEnd
      rw [Nat.mod_eq_of_lt (by omega), if_neg (by omega)]
    rw [Nat.mod_eq_of_lt (by omega), hce, List.length_take, List.length_drop]
    omega

/-- C5 witness: the instantiation at k = 1 — a 512-byte input is sent as one
full chunk plus one empty-payload DATA packet, and the empty input as a
single empty DATA packet. -/
theorem c5_witness :
    putFile [] [] (ackSeq 0 2) = ([requestPacket OPCODE_WRQ [], [0, 3, 0, 1]], PutResult.ok) ∧
    putFile [] (List.replicate 512 5) (ackSeq 0 (1 + 2)) =
      (requestPacket OPCODE_WRQ [] :: dataSeq (List.replicate 512 5) 1 (1 + 1), PutResult.ok) ∧
    dataPayload (List.replicate 512 5) (1 + 1) = [] ∧
    (dataPayload (List.replicate 512 5) 1).length = 512 := by
  have h := c5_put_empty_and_exact_multiple [] (List.replicate 512 5) 1 (by norm_num)
    (by norm_num) (by rw [List.length_replicate])
  exact ⟨h.1, h.2.1, h.2.2.1, h.2.2.2 1 (by norm_num) (by norm_num)⟩
